import Mathlib

/-!
Verification of the PyCASTEP spin-DOS pipeline
(`src/DOSParser/read_spin_dos.py`, `src/DOSParser/ReadDOS.py`).

The embedding works over exact rationals (`ℚ`) in place of IEEE floats:
all claims are about exact arithmetic identities, branch decisions and
error propagation, none about rounding.  A `SERIES_2D` element is
modelled as its list of (x, y) points; an unparseable document
(`xml.etree.ElementTree.ParseError` on an empty/truncated file) is
modelled as the `none` case of an `Option` input.
-/

deriving instance DecidableEq for Except

namespace PyCASTEP

/-- One `SERIES_2D` markup element: the list of points, each carrying an
`XY` attribute of one energy value and one DOS intensity value. -/
abbrev Series : Type := List (ℚ × ℚ)

/-- The two lookup keys of `extract_dos`'s accessor dictionary in
`read_spin_dos.py` (`'e'`: first component of `XY`, `'dos'`: second). -/
inductive XYKey where
  | e
  | dos

/-- `extract_dos(_band, _key)` from `read_spin_dos.py`: project the
energy axis or the intensity axis out of one series.  (The source builds
the projection by evaluating a format string; the spec's design note
reconstructs it as this static enumerated accessor.) -/
def extract_dos (band : Series) : XYKey → List ℚ
  | XYKey.e => band.map Prod.fst
  | XYKey.dos => band.map Prod.snd

/-- `np.trapz(y, x)`: trapezoidal rule over possibly non-uniform `x`,
`Σ (x[i+1] - x[i]) * (y[i] + y[i+1]) / 2` in parse order. -/
def trapz : List ℚ → List ℚ → ℚ
  | y1 :: y2 :: ys, x1 :: x2 :: xs =>
      (x2 - x1) * (y1 + y2) / 2 + trapz (y2 :: ys) (x2 :: xs)
  | _, _ => 0

/-- numpy elementwise product `y * x` (both operands of equal length in
every call site of the source). -/
def mulL (y x : List ℚ) : List ℚ := List.zipWith (fun a b => a * b) y x

/-- numpy elementwise `arr * -1`, the source's beta-curve negation. -/
def negL (l : List ℚ) : List ℚ := l.map (fun v => v * (-1))

/-- numpy elementwise `arr * c` (uniform scaling of the intensity axis). -/
def smulL (c : ℚ) (l : List ℚ) : List ℚ := l.map (fun v => c * v)

/-- `dcenter(x, y)` from `read_spin_dos.py`:
`pdE = np.trapz(y, x); pEdE = np.trapz(y*x, x); return pEdE/pdE`.
No zero check exists in the source; in this exact-arithmetic model the
Lean convention `q / 0 = 0` stands in for the IEEE NaN/inf that numpy
would produce (claims about that case are stated through
`band_center` below, which models the undefined value explicitly). -/
def dcenter (x y : List ℚ) : ℚ := trapz (mulL y x) x / trapz y x

/-- One entry of the `DOS` dictionary of `parse_xcd`: an energy column
and an intensity column (`{'dE_alpha': ..., 'd_alpha': ...}` etc.). -/
structure DCurve where
  e : List ℚ
  dos : List ℚ
  deriving DecidableEq

/-- `check_ab(_alpha, _beta)` from `read_spin_dos.py`: compare the band
centers of the two d-channel dictionary entries, returning
`dc_alpha > dc_beta`. -/
def check_ab (alpha beta : DCurve) : Bool :=
  decide (dcenter alpha.e alpha.dos > dcenter beta.e beta.dos)

/-- Errors arising in `read_spin_dos.py`'s per-file pipeline:
`parseError` models `xml.etree.ElementTree.ParseError` raised by
`ET.parse` on an unparseable file (the spec's `MalformedInputError`);
`unboundLocalError` models the `UnboundLocalError` raised by
`band_extract`'s `return bands, d_band_exists` when neither `if` branch
bound `d_band_exists`, i.e. when the series count is neither 4 nor 6
(the spec's `UnsupportedBandCountError`). -/
inductive SpinErr where
  | parseError
  | unboundLocalError
  deriving DecidableEq

/-- The `bands` dictionary built by `band_extract`: four positionally
labeled series, or six when the d pair is present. -/
inductive Bands where
  | four (s_alpha s_beta p_alpha p_beta : Series)
  | six (s_alpha s_beta p_alpha p_beta d_alpha d_beta : Series)
  deriving DecidableEq

/-- `band_extract(_root)` from `read_spin_dos.py`: positional labeling
of the `SERIES_2D` elements found in document order.  With exactly 4
series the dictionary holds `s_alpha..p_beta` and `d_band_exists` is
`False`; with exactly 6 it additionally holds `d_alpha, d_beta` and the
flag is `True`; any other count leaves `d_band_exists` unbound and the
`return` statement raises `UnboundLocalError`. -/
def band_extract (root : List Series) : Except SpinErr (Bands × Bool) :=
  match root with
  | [b0, b1, b2, b3] => Except.ok (Bands.four b0 b1 b2 b3, false)
  | [b0, b1, b2, b3, b4, b5] => Except.ok (Bands.six b0 b1 b2 b3 b4 b5, true)
  | _ => Except.error SpinErr.unboundLocalError

/-- The d-orbital block of `parse_xcd`'s `DOS` dictionary. -/
structure DPart where
  dE_alpha : List ℚ
  d_alpha : List ℚ
  dE_beta : List ℚ
  d_beta : List ℚ
  deriving DecidableEq

/-- The full `DOS` dictionary assembled by `parse_xcd` (the final
`pd.concat` only lays these same columns side by side and is not
modelled).  The d block is absent for 4-series files. -/
structure SpinDOS where
  sE_alpha : List ℚ
  s_alpha : List ℚ
  sE_beta : List ℚ
  s_beta : List ℚ
  pE_alpha : List ℚ
  p_alpha : List ℚ
  pE_beta : List ℚ
  p_beta : List ℚ
  dpart : Option DPart
  deriving DecidableEq

/-- `parse_xcd(_path)` from `read_spin_dos.py`, from the parse result
onward: `none` stands for a file `ET.parse` cannot parse (the raised
`ParseError` propagates - the function has no handler), `some root` for
a parsed document given as its list of `SERIES_2D` elements.  The beta
intensity columns are negated on extraction (`*-1`); for 6-series
files `check_ab` is consulted on the raw-alpha entry and the
already-negated beta entry, and when it returns `True` the d pair is
rebuilt with the series swapped: the new `d_alpha` is the raw beta
curve negated (`extract_dos(bands['d_beta'],'dos')*-1`) and the new
`d_beta` is the raw alpha curve without negation. -/
def parse_xcd (doc : Option (List Series)) : Except SpinErr SpinDOS :=
  match doc with
  | none => Except.error SpinErr.parseError
  | some root =>
    match band_extract root with
    | Except.error err => Except.error err
    | Except.ok (Bands.four b0 b1 b2 b3, _) =>
      Except.ok
        { sE_alpha := extract_dos b0 XYKey.e
          s_alpha := extract_dos b0 XYKey.dos
          sE_beta := extract_dos b1 XYKey.e
          s_beta := negL (extract_dos b1 XYKey.dos)
          pE_alpha := extract_dos b2 XYKey.e
          p_alpha := extract_dos b2 XYKey.dos
          pE_beta := extract_dos b3 XYKey.e
          p_beta := negL (extract_dos b3 XYKey.dos)
          dpart := none }
    | Except.ok (Bands.six b0 b1 b2 b3 b4 b5, _) =>
      let base : DPart :=
        { dE_alpha := extract_dos b4 XYKey.e
          d_alpha := extract_dos b4 XYKey.dos
          dE_beta := extract_dos b5 XYKey.e
          d_beta := negL (extract_dos b5 XYKey.dos) }
      let dp : DPart :=
        if check_ab ⟨base.dE_alpha, base.d_alpha⟩ ⟨base.dE_beta, base.d_beta⟩ then
          { dE_alpha := extract_dos b5 XYKey.e
            d_alpha := negL (extract_dos b5 XYKey.dos)
            dE_beta := extract_dos b4 XYKey.e
            d_beta := extract_dos b4 XYKey.dos }
        else base
      Except.ok
        { sE_alpha := extract_dos b0 XYKey.e
          s_alpha := extract_dos b0 XYKey.dos
          sE_beta := extract_dos b1 XYKey.e
          s_beta := negL (extract_dos b1 XYKey.dos)
          pE_alpha := extract_dos b2 XYKey.e
          p_alpha := extract_dos b2 XYKey.dos
          pE_beta := extract_dos b3 XYKey.e
          p_beta := negL (extract_dos b3 XYKey.dos)
          dpart := some dp }

/-- Shorthand: the d block `parse_xcd` builds when no swap fires
(raw alpha kept, raw beta negated). -/
def dBasePart (b4 b5 : Series) : DPart :=
  { dE_alpha := extract_dos b4 XYKey.e
    d_alpha := extract_dos b4 XYKey.dos
    dE_beta := extract_dos b5 XYKey.e
    d_beta := negL (extract_dos b5 XYKey.dos) }

/-- Shorthand: the d block `parse_xcd` builds when the swap fires (the
raw beta curve negated becomes `d_alpha`, the raw alpha curve
un-negated becomes `d_beta`). -/
def dSwapPart (b4 b5 : Series) : DPart :=
  { dE_alpha := extract_dos b5 XYKey.e
    d_alpha := negL (extract_dos b5 XYKey.dos)
    dE_beta := extract_dos b4 XYKey.e
    d_beta := extract_dos b4 XYKey.dos }

/-- Shorthand: the full `parse_xcd` output from the four s/p series
(alpha columns raw, beta columns negated) and a given d block. -/
def spOut (b0 b1 b2 b3 : Series) (dp : Option DPart) : SpinDOS :=
  { sE_alpha := extract_dos b0 XYKey.e
    s_alpha := extract_dos b0 XYKey.dos
    sE_beta := extract_dos b1 XYKey.e
    s_beta := negL (extract_dos b1 XYKey.dos)
    pE_alpha := extract_dos b2 XYKey.e
    p_alpha := extract_dos b2 XYKey.dos
    pE_beta := extract_dos b3 XYKey.e
    p_beta := negL (extract_dos b3 XYKey.dos)
    dpart := dp }

/-- Errors of `ReadDOS.py`: `attributeError` is the `AttributeError`
`XcdFile.__init__` raises when `ET.parse` fails; `valueError` is the
`ValueError` `band_center` raises for an unsupported band label. -/
inductive ReadErr where
  | attributeError
  | valueError
  deriving DecidableEq

/-- `XcdFile.__init__` from `ReadDOS.py`, restricted to its error
behaviour: a failed parse (`none`) is caught and re-raised as
`AttributeError`; a parsed document is accepted (the per-band
dictionary it then builds is not needed by any claim). -/
def xcdFile_init (doc : Option (List Series)) : Except ReadErr (List Series) :=
  match doc with
  | none => Except.error ReadErr.attributeError
  | some root => Except.ok root

/-- `XcdFile.band_center` from `ReadDOS.py`, parameterised by the curve
`get_xy(band)` returns: a label outside `["s","p","d","f"]` raises
`ValueError`; otherwise `pEdE / pdE` is computed with no zero check
(`np.seterr(invalid="ignore")` explicitly silences the numpy warning).
The IEEE NaN/inf produced when `pdE = 0` is modelled as `none`
(an unflagged undefined value, not an exception). -/
def band_center (band : String) (x y : List ℚ) : Except ReadErr (Option ℚ) :=
  if band ∈ (["s", "p", "d", "f"] : List String) then
    Except.ok (if trapz y x = 0 then none else some (dcenter x y))
  else
    Except.error ReadErr.valueError

/-! ### The sequence planner of `get_dos` -/

/-- Lexicographic code-point comparison of character lists: the order
Python uses to compare the strings of a directory listing. -/
def charsLe : List Char → List Char → Bool
  | [], _ => true
  | _ :: _, [] => false
  | a :: as, b :: bs => if a = b then charsLe as bs else decide (a < b)

/-- Python string `<=` (lexicographic over Unicode code points). -/
def strLeB (a b : String) : Bool := charsLe a.data b.data

/-- `strLeB` as a relation, for `List.insertionSort`. -/
def strLeP (a b : String) : Prop := strLeB a b = true

/-- The flipped relation: descending order, as produced by Python's
`list.sort(reverse=True)`. -/
def strGeP (a b : String) : Prop := strLeP b a

instance : DecidableRel strLeP := fun a b => instDecidableEqBool (strLeB a b) true

instance : DecidableRel strGeP := fun a b => instDecidableEqBool (strLeB b a) true

/-- Whether `needle` is a prefix of `hay` (code-point equality). -/
def isPrefixB : List Char → List Char → Bool
  | [], _ => true
  | _ :: _, [] => false
  | a :: as, b :: bs => a == b && isPrefixB as bs

/-- Helper for substring search: does `needle` occur starting at any
suffix of the haystack? -/
def containsAux (needle : List Char) : List Char → Bool
  | [] => needle.isEmpty
  | h :: t => isPrefixB needle (h :: t) || containsAux needle t

/-- Python's substring test `needle in hay`. -/
def containsSub (hay needle : String) : Bool := containsAux needle.data hay.data

/-- `filelist.sort()`: ascending lexicographic sort of the listing. -/
def sortAsc (l : List String) : List String := List.insertionSort strLeP l

/-- `compressive.sort(reverse=True)`: stable descending sort. -/
def sortDesc (l : List String) : List String := List.insertionSort strGeP l

/-- Python stride slice `t[::2]`. -/
def stride2 {α : Type} : List α → List α
  | [] => []
  | [a] => [a]
  | a :: _ :: rest => a :: stride2 rest

/-- Python stride slice `t[::3]`. -/
def stride3 {α : Type} : List α → List α
  | [] => []
  | [a] => [a]
  | [a, _] => [a]
  | a :: _ :: _ :: rest => a :: stride3 rest

/-- `list(chain.from_iterable(zip(sf, bk)))`: alternate two lists,
truncating at the shorter (Python `zip` semantics). -/
def interleave2 {α : Type} : List α → List α → List α
  | a :: as, b :: bs => a :: b :: interleave2 as bs
  | _, _ => []

/-- The flattened `[[sf[i], subsf[i], bk[i]] for i in range(len(sf))]`
regrouping.  The source iterates exactly `len(sf)` steps; in every call
`sf` is the shortest of the three stride lists, so stopping at the
first exhausted list coincides with the source's behaviour. -/
def interleave3 {α : Type} : List α → List α → List α → List α
  | a :: as, b :: bs, c :: cs => a :: b :: c :: interleave3 as bs cs
  | _, _, _ => []

/-- The bulk-only branch of `get_dos`: first 4 sorted entries re-sorted
descending, the rest appended unchanged. -/
def planBulk (fs : List String) : List String :=
  sortDesc (fs.take 4) ++ fs.drop 4

/-- The surface-only branch of `get_dos`: first 8 sorted entries
re-sorted descending; the remainder regrouped as
`chain(zip(tensile[1::2], tensile[::2]))`. -/
def planSurface (fs : List String) : List String :=
  sortDesc (fs.take 8) ++
    interleave2 (stride2 ((fs.drop 8).drop 1)) (stride2 (fs.drop 8))

/-- The surface+subsurface branch of `get_dos`: first 12 sorted entries
re-sorted descending; the remainder regrouped from the stride lists
`tensile[2::3]`, `tensile[1::3]`, `tensile[::3]` flattened row-major. -/
def planSub (fs : List String) : List String :=
  sortDesc (fs.take 12) ++
    interleave3 (stride3 ((fs.drop 12).drop 2)) (stride3 ((fs.drop 12).drop 1))
      (stride3 (fs.drop 12))

/-- The file-reordering logic of `get_dos(_path, _target, _dir)`: sort
the listing, inspect entries 1 and 0 for the marker substrings, and
dispatch to one of the three layout branches.  A listing of fewer than
two entries makes `filelist[1]` raise `IndexError`, modelled as `none`. -/
def planFiles (filelist : List String) : Option (List String) :=
  match sortAsc filelist with
  | f0 :: f1 :: rest =>
    let fs := f0 :: f1 :: rest
    some
      (if containsSub f1 "subsurface" && containsSub f0 "bulk" then planSub fs
       else if containsSub f1 "surface" then planSurface fs
       else planBulk fs)
  | _ => none

/-! ### Algebraic facts about the trapezoidal rule and `dcenter` -/

theorem trapz_smulL (c : ℚ) : ∀ (y x : List ℚ), trapz (smulL c y) x = c * trapz y x
  | [], _ => by simp [smulL, trapz]
  | [y1], x => by cases x <;> simp [smulL, trapz]
  | y1 :: y2 :: ys, [] => by simp [smulL, trapz]
  | y1 :: y2 :: ys, [x1] => by simp [smulL, trapz]
  | y1 :: y2 :: ys, x1 :: x2 :: xs => by
      have ih := trapz_smulL c (y2 :: ys) (x2 :: xs)
      simp only [smulL, List.map_cons] at ih ⊢
      simp only [trapz] at ih ⊢
      rw [ih]
      ring

theorem trapz_negL : ∀ (y x : List ℚ), trapz (negL y) x = - trapz y x
  | [], _ => by simp [negL, trapz]
  | [y1], x => by cases x <;> simp [negL, trapz]
  | y1 :: y2 :: ys, [] => by simp [negL, trapz]
  | y1 :: y2 :: ys, [x1] => by simp [negL, trapz]
  | y1 :: y2 :: ys, x1 :: x2 :: xs => by
      have ih := trapz_negL (y2 :: ys) (x2 :: xs)
      simp only [negL, List.map_cons] at ih ⊢
      simp only [trapz] at ih ⊢
      rw [ih]
      ring

theorem mulL_smulL (c : ℚ) : ∀ (y x : List ℚ), mulL (smulL c y) x = smulL c (mulL y x)
  | [], x => by simp [mulL, smulL]
  | y1 :: ys, [] => by simp [mulL, smulL]
  | y1 :: ys, x1 :: xs => by
      have ih := mulL_smulL c ys xs
      simp only [mulL, smulL, List.map_cons, List.zipWith_cons_cons] at ih ⊢
      rw [ih, mul_assoc]

theorem mulL_negL : ∀ (y x : List ℚ), mulL (negL y) x = negL (mulL y x)
  | [], x => by simp [mulL, negL]
  | y1 :: ys, [] => by simp [mulL, negL]
  | y1 :: ys, x1 :: xs => by
      have ih := mulL_negL ys xs
      simp only [mulL, negL, List.map_cons, List.zipWith_cons_cons] at ih ⊢
      rw [ih]
      ring_nf

theorem dcenter_negL (x y : List ℚ) : dcenter x (negL y) = dcenter x y := by
  unfold dcenter
  rw [mulL_negL, trapz_negL, trapz_negL, neg_div_neg_eq]

theorem dcenter_smulL (c : ℚ) (hc : c ≠ 0) (x y : List ℚ) :
    dcenter x (smulL c y) = dcenter x y := by
  unfold dcenter
  rw [mulL_smulL, trapz_smulL, trapz_smulL, mul_div_mul_left _ _ hc]

/-! ### The lexicographic string order is total, transitive and antisymmetric -/

theorem charsLe_total : ∀ a b : List Char, charsLe a b = true ∨ charsLe b a = true
  | [], _ => Or.inl rfl
  | _ :: _, [] => Or.inr rfl
  | a :: as, b :: bs => by
      by_cases hab : a = b
      · subst hab
        rcases charsLe_total as bs with h | h
        · exact Or.inl (by simp [charsLe, h])
        · exact Or.inr (by simp [charsLe, h])
      · rcases lt_trichotomy a b with h | h | h
        · exact Or.inl (by simp [charsLe, hab, h])
        · exact absurd h hab
        · exact Or.inr (by simp [charsLe, Ne.symm hab, h])

theorem charsLe_trans : ∀ a b c : List Char,
    charsLe a b = true → charsLe b c = true → charsLe a c = true
  | [], _, _, _, _ => rfl
  | _ :: _, [], _, h, _ => by simp [charsLe] at h
  | _ :: _, _ :: _, [], _, h => by simp [charsLe] at h
  | a :: as, b :: bs, c :: cs, h1, h2 => by
      by_cases hab : a = b <;> by_cases hbc : b = c
      · subst hab; subst hbc
        simp only [charsLe, if_pos rfl] at h1 h2 ⊢
        exact charsLe_trans as bs cs h1 h2
      · subst hab
        simp only [charsLe, if_pos rfl, if_neg hbc] at h1 h2 ⊢
        exact h2
      · subst hbc
        simp only [charsLe, if_neg hab, if_pos rfl] at h1 h2 ⊢
        exact h1
      · simp only [charsLe, if_neg hab, if_neg hbc, decide_eq_true_eq] at h1 h2
        have hac : a < c := lt_trans h1 h2
        simp [charsLe, ne_of_lt hac, hac]

theorem charsLe_antisymm : ∀ a b : List Char,
    charsLe a b = true → charsLe b a = true → a = b
  | [], [], _, _ => rfl
  | [], _ :: _, _, h => by simp [charsLe] at h
  | _ :: _, [], h, _ => by simp [charsLe] at h
  | a :: as, b :: bs, h1, h2 => by
      by_cases hab : a = b
      · subst hab
        simp only [charsLe, if_pos rfl] at h1 h2
        rw [charsLe_antisymm as bs h1 h2]
      · simp only [charsLe, if_neg hab, if_neg (Ne.symm hab), decide_eq_true_eq] at h1 h2
        exact absurd h2 (not_lt_of_gt h1)

instance : IsTotal String strLeP :=
  ⟨fun a b => charsLe_total a.data b.data⟩

instance : IsTrans String strLeP :=
  ⟨fun a b c h1 h2 => charsLe_trans a.data b.data c.data h1 h2⟩

instance : IsAntisymm String strLeP :=
  ⟨fun a b h1 h2 => by
    have := charsLe_antisymm a.data b.data h1 h2
    cases a
    cases b
    simp only at this
    rw [this]⟩

instance : IsTotal String strGeP :=
  ⟨fun a b => charsLe_total b.data a.data⟩

instance : IsTrans String strGeP :=
  ⟨fun a b c h1 h2 => charsLe_trans c.data b.data a.data h2 h1⟩

instance : IsAntisymm String strGeP :=
  ⟨fun a b h1 h2 => by
    have := charsLe_antisymm b.data a.data h1 h2
    cases a
    cases b
    simp only at this
    rw [this]⟩

theorem sortAsc_perm (l : List String) : (sortAsc l).Perm l :=
  List.perm_insertionSort strLeP l

theorem sortDesc_perm (l : List String) : (sortDesc l).Perm l :=
  List.perm_insertionSort strGeP l

theorem sortAsc_sorted (l : List String) : List.Sorted strLeP (sortAsc l) :=
  List.sorted_insertionSort strLeP l

theorem sortAsc_eq_of_perm {l1 l2 : List String} (h : l1.Perm l2) : sortAsc l1 = sortAsc l2 :=
  List.eq_of_perm_of_sorted ((sortAsc_perm l1).trans (h.trans (sortAsc_perm l2).symm))
    (sortAsc_sorted l1) (sortAsc_sorted l2)

theorem sortDesc_of_sorted {l : List String} (h : List.Sorted strLeP l) :
    sortDesc l = l.reverse := by
  refine List.eq_of_perm_of_sorted (r := strGeP)
    ((sortDesc_perm l).trans l.reverse_perm.symm)
    (List.sorted_insertionSort strGeP l) ?_
  exact (List.pairwise_reverse).mpr h

/-! ### The stride/interleave regroupings preserve elements when the
remainder length matches the stride -/

theorem stride3_cons {α : Type} (c : α) (r : List α) :
    stride3 (c :: r) = c :: stride3 (r.drop 2) := by
  match r with
  | [] => rfl
  | [d] => rfl
  | d :: e :: r' => rfl

theorem inter2_perm {α : Type} : ∀ (t : List α), 2 ∣ t.length →
    (interleave2 (stride2 (t.drop 1)) (stride2 t)).Perm t
  | [], _ => by simp [stride2, interleave2]
  | [a], h => absurd h (by simp)
  | [a, b], _ => by
      simpa [stride2, interleave2] using List.Perm.swap a b []
  | a :: b :: c :: r, h => by
      have hr : 2 ∣ (c :: r).length := by
        simp only [List.length_cons] at h ⊢
        omega
      have ih := inter2_perm (c :: r) hr
      simp only [List.drop_succ_cons, List.drop_zero] at ih ⊢
      simp only [stride2, interleave2]
      exact ((ih.cons a).cons b).trans (List.Perm.swap a b (c :: r))

theorem inter3_perm {α : Type} : ∀ (t : List α), 3 ∣ t.length →
    (interleave3 (stride3 (t.drop 2)) (stride3 (t.drop 1)) (stride3 t)).Perm t
  | [], _ => by simp [stride3, interleave3]
  | [a], h => absurd h (by simp)
  | [a, b], h => absurd h (by simp; omega)
  | a :: b :: c :: r, h => by
      have hr : 3 ∣ r.length := by
        simp only [List.length_cons] at h
        omega
      have ih := inter3_perm r hr
      simp only [List.drop_succ_cons, List.drop_zero] at ih ⊢
      rw [stride3_cons c r, stride3_cons b (c :: r), show ((c :: r).drop 2) = r.drop 1 from rfl]
      simp only [stride3, interleave3]
      refine (((ih.cons a).cons b).cons c).trans ?_
      exact (List.Perm.swap b c (a :: r)).trans
        (((List.Perm.swap a c r).cons b).trans (List.Perm.swap a b (c :: r)))

theorem planBulk_perm (fs : List String) : (planBulk fs).Perm fs := by
  unfold planBulk
  refine ((sortDesc_perm (fs.take 4)).append_right (fs.drop 4)).trans ?_
  rw [List.take_append_drop]

theorem planSurface_perm {fs : List String} (h : 2 ∣ (fs.drop 8).length) :
    (planSurface fs).Perm fs := by
  unfold planSurface
  refine ((sortDesc_perm (fs.take 8)).append (inter2_perm (fs.drop 8) h)).trans ?_
  rw [List.take_append_drop]

theorem planSub_perm {fs : List String} (h : 3 ∣ (fs.drop 12).length) :
    (planSub fs).Perm fs := by
  unfold planSub
  refine ((sortDesc_perm (fs.take 12)).append (inter3_perm (fs.drop 12) h)).trans ?_
  rw [List.take_append_drop]

theorem planFiles_of_sorted {l : List String} {f0 f1 : String} {rest : List String}
    (h : sortAsc l = f0 :: f1 :: rest) :
    planFiles l = some
      (if containsSub f1 "subsurface" && containsSub f0 "bulk" then planSub (f0 :: f1 :: rest)
       else if containsSub f1 "surface" then planSurface (f0 :: f1 :: rest)
       else planBulk (f0 :: f1 :: rest)) := by
  unfold planFiles
  rw [h]

/-! ### Claim theorems -/

/-- C6: a file that cannot be parsed as a markup document at all makes
both readers fail with the raised error (`ParseError` propagating out of
`parse_xcd`, re-raised as `AttributeError` by `XcdFile.__init__`); the
result is an error value, never an empty or partial table. -/
theorem malformed_input_error_propagates :
    parse_xcd none = Except.error SpinErr.parseError ∧
    xcdFile_init none = Except.error ReadErr.attributeError :=
  ⟨rfl, rfl⟩

/-- C5: a parsed document with exactly 4 or exactly 6 series elements is
labeled positionally (`s_alpha, s_beta, p_alpha, p_beta[, d_alpha,
d_beta]` in document order) and the pipeline succeeds; any other series
count makes the pipeline fail with the error raised inside
`band_extract` (in the source an `UnboundLocalError`, since only the
4- and 6-element branches bind `d_band_exists`). -/
theorem series_count_gate :
    (∀ b0 b1 b2 b3 : Series,
      band_extract [b0, b1, b2, b3] = Except.ok (Bands.four b0 b1 b2 b3, false)) ∧
    (∀ b0 b1 b2 b3 b4 b5 : Series,
      band_extract [b0, b1, b2, b3, b4, b5] = Except.ok (Bands.six b0 b1 b2 b3 b4 b5, true)) ∧
    (∀ root : List Series, root.length ≠ 4 → root.length ≠ 6 →
      parse_xcd (some root) = Except.error SpinErr.unboundLocalError) ∧
    (∀ root : List Series, root.length = 4 ∨ root.length = 6 →
      ∃ out, parse_xcd (some root) = Except.ok out) := by
  refine ⟨fun _ _ _ _ => rfl, fun _ _ _ _ _ _ => rfl, ?_, ?_⟩
  · intro root h4 h6
    rcases root with _ | ⟨a, _ | ⟨b, _ | ⟨c, _ | ⟨d, _ | ⟨e, _ | ⟨f, _ | ⟨g, rest⟩⟩⟩⟩⟩⟩⟩
    · rfl
    · rfl
    · rfl
    · rfl
    · simp at h4
    · rfl
    · simp at h6
    · rfl
  · intro root h
    rcases root with _ | ⟨a, _ | ⟨b, _ | ⟨c, _ | ⟨d, _ | ⟨e, _ | ⟨f, _ | ⟨g, rest⟩⟩⟩⟩⟩⟩⟩ <;>
      simp only [List.length_cons, List.length_nil] at h <;>
      first
        | exact ⟨_, rfl⟩
        | (exfalso; omega)

/-- C5 witness: a 5-series document fails the gate; 4- and 6-series
documents pass it with positional labels. -/
theorem series_count_gate_witness :
    parse_xcd (some [[], [], [], [], []]) = Except.error SpinErr.unboundLocalError ∧
    band_extract [[((0:ℚ), (1:ℚ))], [], [], []] =
      Except.ok (Bands.four [((0:ℚ), (1:ℚ))] [] [] [], false) :=
  ⟨series_count_gate.2.2.1 [[], [], [], [], []] (by simp) (by simp),
   series_count_gate.1 [((0:ℚ), (1:ℚ))] [] [] []⟩

/-- C4 counterexample: a curve with denominator integral exactly zero
does not raise any error: `band_center` returns an ok result whose
value is the unflagged undefined quantity (the source computes `0/0`
with the numpy invalid-value warning explicitly suppressed), refuting
the claimed `DegenerateCurveError`. -/
theorem band_center_zero_denominator_counterexample :
    trapz [0, 0] [0, 1] = 0 ∧
    band_center "d" [0, 1] [0, 0] = Except.ok none := by
  constructor
  · norm_num [trapz]
  · norm_num [band_center, trapz]

/-- C4 amended: with a zero denominator integral the band-center
computation raises nothing and yields an unflagged undefined value
(modelled `none`); with a non-zero denominator the center is defined
and no error is raised; only an unsupported band label raises
(`ValueError`). -/
theorem band_center_zero_denominator_unflagged :
    (∀ band : String, ∀ x y : List ℚ, band ∈ (["s", "p", "d", "f"] : List String) →
      trapz y x = 0 → band_center band x y = Except.ok none) ∧
    (∀ band : String, ∀ x y : List ℚ, band ∈ (["s", "p", "d", "f"] : List String) →
      trapz y x ≠ 0 → band_center band x y = Except.ok (some (dcenter x y))) ∧
    (∀ band : String, ∀ x y : List ℚ, band ∉ (["s", "p", "d", "f"] : List String) →
      band_center band x y = Except.error ReadErr.valueError) := by
  refine ⟨?_, ?_, ?_⟩
  · intro band x y hb h0
    simp [band_center, hb, h0]
  · intro band x y hb h0
    simp [band_center, hb, h0]
  · intro band x y hb
    simp [band_center, hb]

/-- C4 witness: the amended claim at concrete curves: a flat-zero curve
gives an ok undefined value, a non-degenerate curve gives its center,
and a bad label gives the `ValueError`. -/
theorem band_center_zero_denominator_unflagged_witness :
    band_center "d" [0, 2] [0, 0] = Except.ok none ∧
    band_center "p" [0, 1] [1, 1] = Except.ok (some (dcenter [0, 1] [1, 1])) ∧
    band_center "g" [0, 1] [1, 1] = Except.error ReadErr.valueError := by
  refine ⟨?_, ?_, ?_⟩
  · exact band_center_zero_denominator_unflagged.1 "d" [0, 2] [0, 0] (by simp)
      (by norm_num [trapz])
  · exact band_center_zero_denominator_unflagged.2.1 "p" [0, 1] [1, 1] (by simp)
      (by norm_num [trapz])
  · exact band_center_zero_denominator_unflagged.2.2 "g" [0, 1] [1, 1] (by simp)

/-- C9: the band center is invariant under uniform positive scaling of
the intensity axis.  (The non-zero denominator hypothesis keeps the
statement inside the float-faithful region of the model.) -/
theorem dcenter_scale_invariant (x y : List ℚ) (c : ℚ) (hc : 0 < c)
    (hd : trapz y x ≠ 0) : dcenter x (smulL c y) = dcenter x y :=
  dcenter_smulL c (ne_of_gt hc) x y

/-- C9 witness: scaling the curve `y = [1, 1]` over `x = [0, 1]` by 2
leaves the center unchanged. -/
theorem dcenter_scale_invariant_witness :
    0 < (2 : ℚ) ∧ trapz [1, 1] [0, 1] ≠ 0 ∧
    dcenter [0, 1] (smulL 2 [1, 1]) = dcenter [0, 1] [1, 1] :=
  ⟨by norm_num, by norm_num [trapz],
   dcenter_scale_invariant [0, 1] [1, 1] 2 (by norm_num) (by norm_num [trapz])⟩

/-- C10: the band center is invariant under negation of the intensity
axis, so `check_ab`, although called on the already-negated beta entry,
compares exactly the raw alpha and raw beta band centers. -/
theorem dcenter_neg_invariant_swap_compares_raw (x y : List ℚ)
    (hd : trapz y x ≠ 0) :
    dcenter x (negL y) = dcenter x y ∧
    ∀ xa ya : List ℚ,
      check_ab ⟨xa, ya⟩ ⟨x, negL y⟩ = decide (dcenter xa ya > dcenter x y) := by
  refine ⟨dcenter_negL x y, fun xa ya => ?_⟩
  simp only [check_ab, dcenter_negL]

/-- C10 witness: negation invariance and the raw-center comparison at a
concrete curve pair. -/
theorem dcenter_neg_invariant_swap_compares_raw_witness :
    trapz [1, 1] [0, 2] ≠ 0 ∧
    dcenter [0, 2] (negL [1, 1]) = dcenter [0, 2] [1, 1] ∧
    check_ab ⟨[0, 2], [3, 3]⟩ ⟨[0, 2], negL [1, 1]⟩ =
      decide (dcenter [0, 2] [3, 3] > dcenter [0, 2] [1, 1]) := by
  have h : trapz [1, 1] [0, 2] ≠ 0 := by norm_num [trapz]
  have hm := dcenter_neg_invariant_swap_compares_raw [0, 2] [1, 1] h
  exact ⟨h, hm.1, hm.2 [0, 2] [3, 3]⟩

/-- C1 counterexample: a 6-series file with `center(d_alpha_raw) = 1`
and `center(d_beta_raw) = 2`.  The claim (and the spec's swap scenario)
says the pair is swapped, canonical alpha receiving the raw beta curve;
the code's `check_ab` returns `1 > 2 = False` and leaves the pair
unswapped, so the output d block is the unswapped one and differs from
the claimed swapped block. -/
theorem d_swap_le_rule_counterexample :
    dcenter [0, 2] [1, 1] = 1 ∧ dcenter [1, 3] [2, 2] = 2 ∧
    parse_xcd (some [[((0:ℚ), (0:ℚ))], [(0, 0)], [(0, 0)], [(0, 0)],
        [(0, 1), (2, 1)], [(1, 2), (3, 2)]]) =
      Except.ok
        { sE_alpha := [0], s_alpha := [0], sE_beta := [0], s_beta := [0],
          pE_alpha := [0], p_alpha := [0], pE_beta := [0], p_beta := [0],
          dpart := some
            { dE_alpha := [0, 2], d_alpha := [1, 1], dE_beta := [1, 3], d_beta := [-2, -2] } } ∧
    ({ dE_alpha := [0, 2], d_alpha := [1, 1], dE_beta := [1, 3], d_beta := [-2, -2] } : DPart) ≠
      { dE_alpha := [1, 3], d_alpha := [2, 2], dE_beta := [0, 2], d_beta := negL [1, 1] } := by
  refine ⟨?_, ?_, ?_, ?_⟩
  · norm_num [dcenter, trapz, mulL]
  · norm_num [dcenter, trapz, mulL]
  · norm_num [parse_xcd, band_extract, check_ab, dcenter, trapz, mulL, negL, extract_dos]
  · intro h
    have := congrArg DPart.d_alpha h
    simp at this

/-- C1 amended: for a well-formed 6-series file (both d integrals
non-zero) the swap fires if and only if
`center(d_alpha_raw) > center(d_beta_raw)` - the comparison `check_ab`
makes on the negated beta entry equals the raw comparison - so the
canonical `d_alpha` is the raw d curve with the NOT-higher band center
(the raw beta curve, negated, exactly when raw alpha's center is
strictly higher). -/
theorem d_swap_iff_raw_alpha_center_higher (b0 b1 b2 b3 b4 b5 : Series)
    (ha : trapz (extract_dos b4 XYKey.dos) (extract_dos b4 XYKey.e) ≠ 0)
    (hb : trapz (extract_dos b5 XYKey.dos) (extract_dos b5 XYKey.e) ≠ 0) :
    parse_xcd (some [b0, b1, b2, b3, b4, b5]) = Except.ok (spOut b0 b1 b2 b3 (some
      (if dcenter (extract_dos b4 XYKey.e) (extract_dos b4 XYKey.dos) >
          dcenter (extract_dos b5 XYKey.e) (extract_dos b5 XYKey.dos)
       then dSwapPart b4 b5 else dBasePart b4 b5))) := by
  by_cases hc : dcenter (extract_dos b4 XYKey.e) (extract_dos b4 XYKey.dos) >
      dcenter (extract_dos b5 XYKey.e) (extract_dos b5 XYKey.dos)
  · simp [parse_xcd, band_extract, check_ab, dcenter_negL, hc, spOut, dSwapPart, dBasePart]
  · simp [parse_xcd, band_extract, check_ab, dcenter_negL, hc, spOut, dSwapPart, dBasePart]

/-- C1 witness: raw centers 2 (alpha) and 1 (beta): the swap fires and
canonical alpha receives the raw beta curve negated. -/
theorem d_swap_iff_raw_alpha_center_higher_witness :
    parse_xcd (some [[((0:ℚ), (0:ℚ))], [(0, 0)], [(0, 0)], [(0, 0)],
        [(1, 1), (3, 1)], [(0, 2), (2, 2)]]) =
      Except.ok
        { sE_alpha := [0], s_alpha := [0], sE_beta := [0], s_beta := [0],
          pE_alpha := [0], p_alpha := [0], pE_beta := [0], p_beta := [0],
          dpart := some
            { dE_alpha := [0, 2], d_alpha := [-2, -2], dE_beta := [1, 3], d_beta := [1, 1] } } := by
  have h := d_swap_iff_raw_alpha_center_higher [((0:ℚ), (0:ℚ))] [(0, 0)] [(0, 0)] [(0, 0)]
    [(1, 1), (3, 1)] [(0, 2), (2, 2)] (by norm_num [trapz, extract_dos])
    (by norm_num [trapz, extract_dos])
  rw [h]
  norm_num [spOut, dSwapPart, dBasePart, dcenter, trapz, mulL, negL, extract_dos]

/-- C2 counterexample: a 6-series file in which the swap fires (raw
centers 3 and 1).  The output `d_beta` column is taken from the raw
alpha curve `[1, 1]` but is NOT negated, and the output `d_alpha`
column is the negated raw beta curve: the claimed sign convention fails
in the swap branch. -/
theorem beta_negation_counterexample :
    parse_xcd (some [[((0:ℚ), (0:ℚ))], [(0, 0)], [(0, 0)], [(0, 0)],
        [(2, 1), (4, 1)], [(0, 2), (2, 2)]]) =
      Except.ok
        { sE_alpha := [0], s_alpha := [0], sE_beta := [0], s_beta := [0],
          pE_alpha := [0], p_alpha := [0], pE_beta := [0], p_beta := [0],
          dpart := some
            { dE_alpha := [0, 2], d_alpha := [-2, -2], dE_beta := [2, 4], d_beta := [1, 1] } } ∧
    negL [1, 1] = [-1, -1] ∧ ([1, 1] : List ℚ) ≠ [-1, -1] := by
  refine ⟨?_, ?_, ?_⟩
  · norm_num [parse_xcd, band_extract, check_ab, dcenter, trapz, mulL, negL, extract_dos]
  · norm_num [negL]
  · intro h
    simp at h
    norm_num at h

/-- C2 amended: alpha columns keep the raw intensities and beta columns
are negated for every s and p curve and for the d pair when no swap
fires; when the swap fires the negation pattern travels with the
original positions instead: canonical `d_alpha` is the negated raw beta
curve and canonical `d_beta` is the raw alpha curve un-negated. -/
theorem beta_negation_pattern :
    (∀ b0 b1 b2 b3 : Series,
      parse_xcd (some [b0, b1, b2, b3]) = Except.ok (spOut b0 b1 b2 b3 none)) ∧
    (∀ b0 b1 b2 b3 b4 b5 : Series,
      parse_xcd (some [b0, b1, b2, b3, b4, b5]) = Except.ok (spOut b0 b1 b2 b3 (some
        (if dcenter (extract_dos b4 XYKey.e) (extract_dos b4 XYKey.dos) >
            dcenter (extract_dos b5 XYKey.e) (negL (extract_dos b5 XYKey.dos))
         then dSwapPart b4 b5 else dBasePart b4 b5)))) := by
  refine ⟨fun b0 b1 b2 b3 => rfl, fun b0 b1 b2 b3 b4 b5 => ?_⟩
  by_cases hc : dcenter (extract_dos b4 XYKey.e) (extract_dos b4 XYKey.dos) >
      dcenter (extract_dos b5 XYKey.e) (negL (extract_dos b5 XYKey.dos))
  · simp [parse_xcd, band_extract, check_ab, hc, spOut, dSwapPart, dBasePart]
  · simp [parse_xcd, band_extract, check_ab, hc, spOut, dSwapPart, dBasePart]

/-- C3 counterexample: two distinct d curves with exactly equal band
centers (both 1).  The claim says the tie swaps; the code's strict `>`
comparison returns `False` and the pair is NOT swapped: the output d
block is the unswapped one, which differs from the swapped outcome. -/
theorem equal_centers_swap_counterexample :
    dcenter [0, 2] [1, 1] = dcenter [0, 2] [2, 2] ∧
    parse_xcd (some [[((0:ℚ), (0:ℚ))], [(0, 0)], [(0, 0)], [(0, 0)],
        [(0, 1), (2, 1)], [(0, 2), (2, 2)]]) =
      Except.ok
        { sE_alpha := [0], s_alpha := [0], sE_beta := [0], s_beta := [0],
          pE_alpha := [0], p_alpha := [0], pE_beta := [0], p_beta := [0],
          dpart := some
            { dE_alpha := [0, 2], d_alpha := [1, 1], dE_beta := [0, 2], d_beta := [-2, -2] } } ∧
    ({ dE_alpha := [0, 2], d_alpha := [1, 1], dE_beta := [0, 2], d_beta := [-2, -2] } : DPart) ≠
      { dE_alpha := [0, 2], d_alpha := [2, 2], dE_beta := [0, 2], d_beta := negL [1, 1] } := by
  refine ⟨?_, ?_, ?_⟩
  · norm_num [dcenter, trapz, mulL]
  · norm_num [parse_xcd, band_extract, check_ab, dcenter, trapz, mulL, negL, extract_dos]
  · intro h
    have := congrArg DPart.d_alpha h
    simp at this

/-- C3 amended: an exact tie of the two d band centers resolves
deterministically to NOT swapping (the source's comparison is a strict
`>`). -/
theorem equal_centers_no_swap (b0 b1 b2 b3 b4 b5 : Series)
    (ha : trapz (extract_dos b4 XYKey.dos) (extract_dos b4 XYKey.e) ≠ 0)
    (hb : trapz (extract_dos b5 XYKey.dos) (extract_dos b5 XYKey.e) ≠ 0)
    (heq : dcenter (extract_dos b4 XYKey.e) (extract_dos b4 XYKey.dos) =
      dcenter (extract_dos b5 XYKey.e) (extract_dos b5 XYKey.dos)) :
    parse_xcd (some [b0, b1, b2, b3, b4, b5]) =
      Except.ok (spOut b0 b1 b2 b3 (some (dBasePart b4 b5))) := by
  simp [parse_xcd, band_extract, check_ab, dcenter_negL, heq, lt_irrefl, spOut, dBasePart]

/-- C3 witness: two distinct d curves whose centers are both exactly 2:
the reconciled output keeps the raw assignment unswapped. -/
theorem equal_centers_no_swap_witness :
    parse_xcd (some [[((0:ℚ), (0:ℚ))], [(0, 0)], [(0, 0)], [(0, 0)],
        [(0, 1), (4, 1)], [(0, 2), (4, 2)]]) =
      Except.ok
        { sE_alpha := [0], s_alpha := [0], sE_beta := [0], s_beta := [0],
          pE_alpha := [0], p_alpha := [0], pE_beta := [0], p_beta := [0],
          dpart := some
            { dE_alpha := [0, 4], d_alpha := [1, 1], dE_beta := [0, 4], d_beta := [-2, -2] } } := by
  have h := equal_centers_no_swap [((0:ℚ), (0:ℚ))] [(0, 0)] [(0, 0)] [(0, 0)]
    [(0, 1), (4, 1)] [(0, 2), (4, 2)] (by norm_num [trapz, extract_dos])
    (by norm_num [trapz, extract_dos]) (by norm_num [dcenter, trapz, mulL, extract_dos])
  rw [h]
  norm_num [spOut, dBasePart, negL, extract_dos]

/-- C7 counterexample: a surface-only listing of 8 compressive entries
plus ONE tensile entry.  The stride/`zip` regrouping truncates at the
shorter stride list, so the tensile file is silently dropped: the
planned output has 8 entries and is not a permutation of the 9-entry
input. -/
theorem planner_permutation_counterexample :
    planFiles ["s1surface", "s2surface", "s3surface", "s4surface", "s5surface",
        "s6surface", "s7surface", "s8surface", "t1"] =
      some ["s8surface", "s7surface", "s6surface", "s5surface", "s4surface",
        "s3surface", "s2surface", "s1surface"] ∧
    ¬ (["s8surface", "s7surface", "s6surface", "s5surface", "s4surface",
        "s3surface", "s2surface", "s1surface"].Perm
      ["s1surface", "s2surface", "s3surface", "s4surface", "s5surface",
        "s6surface", "s7surface", "s8surface", "t1"]) := by
  constructor
  · decide
  · intro h
    have := h.length_eq
    simp at this

/-- C7 amended: the planner is deterministic - it depends on the input
listing only through its sorted order, so any two listings that are
permutations of each other plan identically - and its output is a
permutation of the input in the bulk-only layout always, and in the
surface-only (resp. surface+subsurface) layout whenever the tensile
remainder has even (resp. multiple-of-3) length; outside those
divisibility conditions trailing tensile files are dropped. -/
theorem planner_determinism_and_layout_perm :
    (∀ l1 l2 : List String, l1.Perm l2 → planFiles l1 = planFiles l2) ∧
    (∀ l : List String, ∀ f0 f1 : String, ∀ rest : List String,
      sortAsc l = f0 :: f1 :: rest →
      (containsSub f1 "subsurface" && containsSub f0 "bulk") = true →
      3 ∣ ((sortAsc l).drop 12).length →
      planFiles l = some (planSub (sortAsc l)) ∧ (planSub (sortAsc l)).Perm l) ∧
    (∀ l : List String, ∀ f0 f1 : String, ∀ rest : List String,
      sortAsc l = f0 :: f1 :: rest →
      (containsSub f1 "subsurface" && containsSub f0 "bulk") = false →
      containsSub f1 "surface" = true →
      2 ∣ ((sortAsc l).drop 8).length →
      planFiles l = some (planSurface (sortAsc l)) ∧ (planSurface (sortAsc l)).Perm l) ∧
    (∀ l : List String, ∀ f0 f1 : String, ∀ rest : List String,
      sortAsc l = f0 :: f1 :: rest →
      (containsSub f1 "subsurface" && containsSub f0 "bulk") = false →
      containsSub f1 "surface" = false →
      planFiles l = some (planBulk (sortAsc l)) ∧ (planBulk (sortAsc l)).Perm l) := by
  refine ⟨?_, ?_, ?_, ?_⟩
  · intro l1 l2 h
    unfold planFiles
    rw [sortAsc_eq_of_perm h]
  · intro l f0 f1 rest hs hc1 h3
    have hp := planFiles_of_sorted hs
    rw [hc1] at hp
    simp only [if_true] at hp
    rw [← hs] at hp
    exact ⟨hp, (planSub_perm h3).trans (sortAsc_perm l)⟩
  · intro l f0 f1 rest hs hc1 hc2 h2
    have hp := planFiles_of_sorted hs
    rw [hc1, hc2] at hp
    simp only [Bool.false_eq_true, if_false, if_true] at hp
    rw [← hs] at hp
    exact ⟨hp, (planSurface_perm h2).trans (sortAsc_perm l)⟩
  · intro l f0 f1 rest hs hc1 hc2
    have hp := planFiles_of_sorted hs
    rw [hc1, hc2] at hp
    simp only [Bool.false_eq_true, if_false] at hp
    rw [← hs] at hp
    exact ⟨hp, (planBulk_perm (sortAsc l)).trans (sortAsc_perm l)⟩

/-- C7 witness: two permuted 3-entry bulk-only listings plan to the
same output, and that output is a permutation of the listing. -/
theorem planner_determinism_and_layout_perm_witness :
    planFiles ["x2", "x1", "x3"] = planFiles ["x1", "x2", "x3"] ∧
    planFiles ["x1", "x2", "x3"] = some (planBulk (sortAsc ["x1", "x2", "x3"])) ∧
    (planBulk (sortAsc ["x1", "x2", "x3"])).Perm ["x1", "x2", "x3"] := by
  have hdet := planner_determinism_and_layout_perm.1 ["x2", "x1", "x3"] ["x1", "x2", "x3"]
    (List.Perm.swap "x1" "x2" ["x3"])
  have hb := planner_determinism_and_layout_perm.2.2.2 ["x1", "x2", "x3"] "x1" "x2" ["x3"]
    (by decide) (by decide) (by decide)
  exact ⟨hdet, hb.1, hb.2⟩

/-- C8: in the bulk-only layout (no marker substring in the sorted
listing's early entries) the planner emits the reverse of the first 4
sorted entries followed by the remaining entries unchanged.  (The
source re-sorts the first 4 descending; on an already ascending-sorted
prefix that equals its reverse.) -/
theorem bulk_layout_reverses_first_four (l : List String) (f0 f1 : String) (rest : List String)
    (hs : sortAsc l = f0 :: f1 :: rest)
    (hc1 : (containsSub f1 "subsurface" && containsSub f0 "bulk") = false)
    (hc2 : containsSub f1 "surface" = false) :
    planFiles l = some (((sortAsc l).take 4).reverse ++ (sortAsc l).drop 4) := by
  have hp := planFiles_of_sorted hs
  rw [hc1, hc2] at hp
  simp only [Bool.false_eq_true, if_false] at hp
  rw [← hs] at hp
  rw [hp]
  unfold planBulk
  rw [sortDesc_of_sorted ((sortAsc_sorted l).sublist (List.take_sublist 4 (sortAsc l)))]

/-- C8 witness: the spec's concrete bulk-only scenario: listing
`["m1","m2","m3","m4","t1","t2"]` plans to
`["m4","m3","m2","m1","t1","t2"]`. -/
theorem bulk_layout_reverses_first_four_witness :
    planFiles ["m1", "m2", "m3", "m4", "t1", "t2"] =
      some ["m4", "m3", "m2", "m1", "t1", "t2"] := by
  have h := bulk_layout_reverses_first_four ["m1", "m2", "m3", "m4", "t1", "t2"]
    "m1" "m2" ["m3", "m4", "t1", "t2"] (by decide) (by decide) (by decide)
  rw [h]
  decide

end PyCASTEP
